import Mathlib

/-!
Verification development for the SafeGuard validation / rate-limiting /
secure-logging layer (`src/services/validationService.ts`,
`src/services/secureLogger.ts`), shallowly embedded in Lean 4.

JavaScript strings are modelled as `String` / `List Char`, JS numbers used by
the rate limiter (`Date.now()` milliseconds) as `Int`, the `Map` of the rate
limiter as a total function with `[]` default (matching `get(id) || []`), and
JS object/array values as the inductive `JsValue`.
-/

set_option maxRecDepth 4000

namespace SafeGuard

/-! ## RateLimiter (validationService.ts lines 282-328)

`checkLimit` is `static async` but contains no suspension point between its
read of the map and its write, so it is embedded as a pure state-passing
function.  Timestamps (`Date.now()`) are integers of milliseconds. -/

namespace RateLimiter

def WINDOW_MS : Int := 60000

def MAX_REQUESTS : Nat := 10

/-- The `requests` map, `Map<string, number[]>`; lookup models
`this.requests.get(identifier) || []`. -/
def RateState : Type := String → List Int

/-- `RateLimiter.checkLimit`: prune timestamps `<= windowStart`, deny without
writing back when the pruned count reaches `MAX_REQUESTS`, otherwise append
`now`, write back, and report the remaining budget. -/
def checkLimit (identifier : String) (now : Int) (st : RateState) :
    (Bool × Nat) × RateState :=
  let windowStart := now - WINDOW_MS
  let pruned := (st identifier).filter (fun timestamp => decide (windowStart < timestamp))
  if MAX_REQUESTS ≤ pruned.length then
    ((false, 0), st)
  else
    let updated := pruned ++ [now]
    ((true, MAX_REQUESTS - updated.length),
      fun id => if id = identifier then updated else st id)

/-- `RateLimiter.clearLimit`: delete one identifier's history, or clear the
whole map when no identifier is given. -/
def clearLimit (identifier : Option String) (st : RateState) : RateState :=
  match identifier with
  | some id => fun x => if x = id then [] else st x
  | none => fun _ => []

/-- State after `n` successive `checkLimit` calls for `identifier` with
call timestamps `t 0, t 1, ...`. -/
def stateAfter (identifier : String) (t : Nat → Int) (st : RateState) : Nat → RateState
  | 0 => st
  | n + 1 => (checkLimit identifier (t n) (stateAfter identifier t st n)).2

/-- Result of the `(n+1)`-st `checkLimit` call in the call sequence of
`stateAfter`. -/
def resultOf (identifier : String) (t : Nat → Int) (st : RateState) (n : Nat) : Bool × Nat :=
  (checkLimit identifier (t n) (stateAfter identifier t st n)).1

/-- A concrete rate-limiter state for claim C2: identifier `"x"` holds one
stale timestamp (10000) followed by ten in-window timestamps (50000) relative
to a call at `now = 100000`. -/
def staleState : RateState :=
  fun x => if x = "x" then 10000 :: List.replicate 10 50000 else []

end RateLimiter

/-! ## JavaScript string primitives used by validationService.ts -/

namespace JsStr

/-- JS whitespace (the code points relevant here; used by
`String.prototype.trim` and the regex class `\s`). -/
def isJsSpace (c : Char) : Bool :=
  c == ' ' || c == '\t' || c == '\n' || c == '\r' || c == '\x0b' || c == '\x0c' ||
    c == Char.ofNat 160 || c == Char.ofNat 65279

/-- Regex `\w`: `[A-Za-z0-9_]`. -/
def isWordChar (c : Char) : Bool := c.isAlphanum || c == '_'

/-- `String.prototype.trim`. -/
def jsTrim (l : List Char) : List Char :=
  ((l.dropWhile isJsSpace).reverse.dropWhile isJsSpace).reverse

end JsStr

/-! ## ValidationService (validationService.ts lines 12-277)

Each regular expression of `PATTERNS` is embedded as an executable recognizer
over `List Char`; anchored patterns become whole-list checks, the greedy
quantifiers' backtracking alternatives are folded into disjunctions where the
adjacent character classes overlap, and are deterministic maximal munch where
they do not. -/

namespace ValidationService

/-- `ValidationResult` (validationService.ts lines 6-10). -/
structure ValidationResult where
  isValid : Bool
  error : Option String := none
  sanitizedValue : Option String := none
deriving DecidableEq

/-- `MAX_LENGTHS` (validationService.ts lines 33-40). -/
structure MaxLengths where
  NAME : Nat
  PHONE : Nat
  EMAIL : Nat
  ADDRESS : Nat
  RELATIONSHIP : Nat
  GENERAL_TEXT : Nat

def MAX_LENGTHS : MaxLengths :=
  { NAME := 50, PHONE := 20, EMAIL := 254, ADDRESS := 500,
    RELATIONSHIP := 50, GENERAL_TEXT := 1000 }

/-- Character class `[\s\-()]` (phone separators; also the class removed by
`/[\s\-\(\)]/g` when normalizing). -/
def isPhoneSep (c : Char) : Bool :=
  JsStr.isJsSpace c || c == '-' || c == '(' || c == ')'

/-- Character class `[\d\s\-()]` (phone body). -/
def isPhoneBody (c : Char) : Bool := c.isDigit || isPhoneSep c

/-- Anchored tail `[\d\s\-()]{6,14}$` of `PATTERNS.PHONE`. -/
def phoneBody (l : List Char) : Bool :=
  decide (6 ≤ l.length) && decide (l.length ≤ 14) && l.all isPhoneBody

/-- Anchored tail `[\s\-()]?[\d\s\-()]{6,14}$` (both alternatives of the
optional separator, since separators also belong to the body class). -/
def phoneSepTail (l : List Char) : Bool :=
  phoneBody l ||
    (match l with
     | c :: r => isPhoneSep c && phoneBody r
     | [] => false)

/-- Anchored tail `\d{0,2}[\s\-()]?[\d\s\-()]{6,14}$` (all three backtracking
alternatives of `\d{0,2}`, since digits also belong to the body class). -/
def phoneCodeTail (l : List Char) : Bool :=
  phoneSepTail l ||
    (match l with
     | c :: r =>
       c.isDigit &&
         (phoneSepTail r ||
           (match r with
            | c2 :: r2 => c2.isDigit && phoneSepTail r2
            | [] => false))
     | [] => false)

/-- `PATTERNS.PHONE`: `^\+?[1-9]\d{0,2}[\s\-()]?[\d\s\-()]{6,14}$`.
`+` belongs to no later class, so `\+?` is deterministic. -/
def matchesPHONE (l : List Char) : Bool :=
  match l with
  | [] => false
  | c :: r =>
    match if c == '+' then r else c :: r with
    | [] => false
    | d :: r2 => decide ('1' ≤ d) && decide (d ≤ '9') && phoneCodeTail r2

/-- The fallback pattern `^\+?\d{6,15}$` tested on the separator-stripped
phone value. -/
def matchesSimplePhone (l : List Char) : Bool :=
  match l with
  | [] => false
  | c :: r =>
    let rest := if c == '+' then r else c :: r
    decide (6 ≤ rest.length) && decide (rest.length ≤ 15) && rest.all Char.isDigit

/-- Characters kept by the phone sanitizing replace
`/[^\d\+\-\(\)\s]/g → ''`. -/
def isPhoneKeep (c : Char) : Bool :=
  c.isDigit || c == '+' || c == '-' || c == '(' || c == ')' || JsStr.isJsSpace c

/-- Local-part class of `PATTERNS.EMAIL`. The three characters written as
code points are backquote (96), left brace (123) and right brace (125). -/
def emailLocalChar (c : Char) : Bool :=
  c.isAlphanum ||
    [ '.', '!', '#', '$', '%', '&', '\'', '*', '+', '/', '=', '?', '^', '_',
      Char.ofNat 96, Char.ofNat 123, '|', Char.ofNat 125, '~', '-' ].contains c

/-- Domain-label interior class `[a-zA-Z0-9-]` of `PATTERNS.EMAIL`. -/
def labelMid (c : Char) : Bool := c.isAlphanum || c == '-'

/-- One domain label `[a-zA-Z0-9](?:[a-zA-Z0-9-]{0,61}[a-zA-Z0-9])?`:
nonempty, at most 63 characters over `[a-zA-Z0-9-]`, first and last
alphanumeric. -/
def validLabel : List Char → Bool
  | [] => false
  | c :: rest =>
    c.isAlphanum &&
      (rest.isEmpty ||
        (decide (rest.length ≤ 62) && rest.dropLast.all labelMid &&
          (match rest.getLast? with
           | some d => d.isAlphanum
           | none => true)))

/-- The anchored label sequence `label(\.label)*$` ending `PATTERNS.EMAIL`:
labels cannot contain `.`, so each maximal `[a-zA-Z0-9-]` run must be a valid
label.  Fuel-based scan; `fuel ≥ l.length + 1` always suffices. -/
def domainLabels : Nat → List Char → Bool
  | 0, _ => false
  | fuel + 1, l =>
    validLabel (l.takeWhile labelMid) &&
      (match l.dropWhile labelMid with
       | [] => true
       | '.' :: rest => domainLabels fuel rest
       | _ => false)

/-- `PATTERNS.EMAIL` (anchored): `@` occurs in no character class of the
pattern, so the local part is exactly the maximal prefix of local-part
characters, followed by `@` and the domain labels. -/
def matchesEMAIL (l : List Char) : Bool :=
  !(l.takeWhile emailLocalChar).isEmpty &&
    (match l.dropWhile emailLocalChar with
     | '@' :: dom => domainLabels (dom.length + 1) dom
     | _ => false)

/-- `PATTERNS.NAME` class `[a-zA-ZÀ-ÿ\s'-]`. -/
def isNameChar (c : Char) : Bool :=
  c.isAlpha || (decide ('À' ≤ c) && decide (c ≤ 'ÿ')) ||
    JsStr.isJsSpace c || c == '\'' || c == '-'

/-- `PATTERNS.NAME`: `^[a-zA-ZÀ-ÿ\s'-]{2,50}$`. -/
def matchesNAME (l : List Char) : Bool :=
  decide (2 ≤ l.length) && decide (l.length ≤ 50) && l.all isNameChar

/-- `.replace(/<[^>]*>/g, '')`: every match starts at a `<` and ends at the
first following `>`; with no `>` ahead there is no further match at all.
Fuel-based left-to-right scan (`fuel ≥ l.length` suffices). -/
def stripTagsAux : Nat → List Char → List Char
  | 0, l => l
  | _, [] => []
  | fuel + 1, c :: r =>
    if c == '<' then
      match r.dropWhile (fun d => !(d == '>')) with
      | [] => c :: r
      | _ :: after => stripTagsAux fuel after
    else c :: stripTagsAux fuel r

def stripTags (l : List Char) : List Char := stripTagsAux l.length l

/-- Case-insensitive prefix test against a lowercase pattern. -/
def startsWithCI (pat l : List Char) : Bool :=
  (l.take pat.length).map Char.toLower == pat

/-- `.replace(/javascript:/gi, '')`: delete each case-insensitive,
non-overlapping, left-to-right occurrence, resuming after the match
(fuel-based; `fuel ≥ l.length` suffices for a nonempty pattern). -/
def removeAllCI (pat : List Char) : Nat → List Char → List Char
  | 0, l => l
  | _, [] => []
  | fuel + 1, c :: r =>
    if startsWithCI pat (c :: r) then removeAllCI pat fuel ((c :: r).drop pat.length)
    else c :: removeAllCI pat fuel r

/-- Length of the match of `/on\w+\s*=/i` at the head of the list, if any:
after a maximal `\w+` run and a maximal `\s*` run the next character must be
`=` (no shorter run can succeed, as the follow-up characters disagree). -/
def onHandlerLen (l : List Char) : Option Nat :=
  match l with
  | c0 :: c1 :: r =>
    if Char.toLower c0 == 'o' && Char.toLower c1 == 'n' then
      let w := (r.takeWhile JsStr.isWordChar).length
      if w == 0 then none
      else
        let r2 := r.drop w
        let s := (r2.takeWhile JsStr.isJsSpace).length
        match r2.drop s with
        | '=' :: _ => some (2 + w + s + 1)
        | _ => none
    else none
  | _ => none

/-- `.replace(/on\w+\s*=/gi, '')` (fuel-based scan). -/
def removeOnHandlers : Nat → List Char → List Char
  | 0, l => l
  | _, [] => []
  | fuel + 1, c :: r =>
    match onHandlerLen (c :: r) with
    | some k => removeOnHandlers fuel ((c :: r).drop k)
    | none => c :: removeOnHandlers fuel r

/-- `ValidationService.validatePhoneNumber`. -/
def validatePhoneNumber (phone : String) : ValidationResult :=
  let trimmed := JsStr.jsTrim phone.toList
  if trimmed.length == 0 then
    { isValid := false, error := some "Phone number is required" }
  else if decide (MAX_LENGTHS.PHONE < trimmed.length) then
    { isValid := false, error := some "Phone number is too long" }
  else
    let normalized := trimmed.filter (fun c => !isPhoneSep c)
    if !matchesPHONE trimmed && !matchesSimplePhone normalized then
      { isValid := false,
        error := some "Invalid phone number format. Use international format: +1 5551234567" }
    else
      { isValid := true, sanitizedValue := some (trimmed.filter isPhoneKeep).asString }

/-- `ValidationService.validateEmail`. -/
def validateEmail (email : String) : ValidationResult :=
  let trimmed := (JsStr.jsTrim email.toList).map Char.toLower
  if trimmed.length == 0 then
    { isValid := false, error := some "Email is required" }
  else if decide (MAX_LENGTHS.EMAIL < trimmed.length) then
    { isValid := false, error := some "Email is too long" }
  else if !matchesEMAIL trimmed then
    { isValid := false, error := some "Invalid email format" }
  else
    { isValid := true, sanitizedValue := some trimmed.asString }

/-- `ValidationService.validateName`. -/
def validateName (name : String) : ValidationResult :=
  let trimmed := JsStr.jsTrim name.toList
  if trimmed.length == 0 then
    { isValid := false, error := some "Name is required" }
  else if decide (MAX_LENGTHS.NAME < trimmed.length) then
    { isValid := false, error := some "Name is too long (max 50 characters)" }
  else if !matchesNAME trimmed then
    { isValid := false,
      error := some
        "Name contains invalid characters. Use only letters, spaces, hyphens, and apostrophes" }
  else
    { isValid := true, sanitizedValue := some (stripTags trimmed).asString }

/-- `ValidationService.validateText`.  The source gives `maxLength` the
default `MAX_LENGTHS.GENERAL_TEXT`; here it is always passed explicitly. -/
def validateText (text : String) (maxLength : Nat) : ValidationResult :=
  let trimmed := JsStr.jsTrim text.toList
  if trimmed.length == 0 then
    { isValid := false, error := some "This field is required" }
  else if decide (maxLength < trimmed.length) then
    { isValid := false,
      error := some ("Text is too long (max " ++ Nat.repr maxLength ++ " characters)") }
  else
    let s1 := stripTags trimmed
    let s2 := removeAllCI "javascript:".toList s1.length s1
    let sanitized := removeOnHandlers s2.length s2
    if sanitized.length == 0 then
      { isValid := false, error := some "Text contains only invalid characters" }
    else
      { isValid := true, sanitizedValue := some sanitized.asString }

/-- `ValidationService.validateRelationship`. -/
def validateRelationship (relationship : String) : ValidationResult :=
  if relationship == "" || (JsStr.jsTrim relationship.toList).length == 0 then
    { isValid := true, sanitizedValue := some "" }
  else
    let result := validateText relationship MAX_LENGTHS.RELATIONSHIP
    if !result.isValid then
      { isValid := false, error := some "Invalid relationship format" }
    else
      { isValid := true, sanitizedValue := result.sanitizedValue }

/-- One global single-character replacement `.replace(/c/g, rep)`. -/
def replaceCharAll (c : Char) (rep : List Char) (l : List Char) : List Char :=
  l.flatMap (fun a => if a == c then rep else [a])

/-- `ValidationService.sanitizeString`: the six chained global replacements,
in source order `&`, `<`, `>`, `"`, `'`, `/`. -/
def sanitizeStringList (l : List Char) : List Char :=
  replaceCharAll '/' "&#x2F;".toList
    (replaceCharAll '\'' "&#x27;".toList
      (replaceCharAll '"' "&quot;".toList
        (replaceCharAll '>' "&gt;".toList
          (replaceCharAll '<' "&lt;".toList
            (replaceCharAll '&' "&amp;".toList l)))))

def sanitizeString (s : String) : String := (sanitizeStringList s.toList).asString

/-- The six characters escaped by `sanitizeString`. -/
def isEscTarget (c : Char) : Bool :=
  c == '&' || c == '<' || c == '>' || c == '"' || c == '\'' || c == '/'

/-- The per-character escape realized by the six chained replacements of
`sanitizeString`: the six target characters are pairwise distinct and no
replacement token contains a target of a later pass, so the chain acts
independently on each character of the original string. -/
def escChar (c : Char) : List Char :=
  if c == '&' then "&amp;".toList
  else if c == '<' then "&lt;".toList
  else if c == '>' then "&gt;".toList
  else if c == '"' then "&quot;".toList
  else if c == '\'' then "&#x27;".toList
  else if c == '/' then "&#x2F;".toList
  else [c]

/-- Union of the character classes occurring in `PATTERNS.EMAIL`. -/
def emailAllowedChar (c : Char) : Bool :=
  emailLocalChar c || c == '@' || labelMid c || c == '.'

/-- The argument record of `validateEmergencyContact`. -/
structure ContactInput where
  name : String
  phone : String
  relationship : Option String := none

/-- JS template-literal coercion of a possibly-undefined string
(`undefined` prints as `"undefined"`; unreachable on the failure paths,
where `error` is always set). -/
def optStr (o : Option String) : String := o.getD "undefined"

/-- `ValidationService.validateEmergencyContact`.  The relationship field is
validated only when present and truthy (nonempty), mirroring
`if (contact.relationship)`. -/
def validateEmergencyContact (contact : ContactInput) : ValidationResult :=
  let nameResult := validateName contact.name
  if !nameResult.isValid then
    { isValid := false, error := some ("Name: " ++ optStr nameResult.error) }
  else
    let phoneResult := validatePhoneNumber contact.phone
    if !phoneResult.isValid then
      { isValid := false, error := some ("Phone: " ++ optStr phoneResult.error) }
    else
      match contact.relationship with
      | some rel =>
        if rel == "" then { isValid := true }
        else
          let relationshipResult := validateRelationship rel
          if !relationshipResult.isValid then
            { isValid := false,
              error := some ("Relationship: " ++ optStr relationshipResult.error) }
          else { isValid := true }
      | none => { isValid := true }

/-- The argument record of `validateLocation`; JS numbers are modelled by
`Rat`, on which the `isNaN` guards are identically false (no claim involves
NaN). -/
structure LocationInput where
  latitude : Rat
  longitude : Rat
  address : Option String := none

/-- `ValidationService.validateLocation`.  The address is validated only when
present and truthy (nonempty), mirroring `if (location.address)`. -/
def validateLocation (location : LocationInput) : ValidationResult :=
  if decide (location.latitude < -90) || decide (90 < location.latitude) then
    { isValid := false, error := some "Invalid latitude value" }
  else if decide (location.longitude < -180) || decide (180 < location.longitude) then
    { isValid := false, error := some "Invalid longitude value" }
  else
    match location.address with
    | some addr =>
      if addr == "" then { isValid := true }
      else
        let addressResult := validateText addr MAX_LENGTHS.ADDRESS
        if !addressResult.isValid then
          { isValid := false, error := some ("Address: " ++ optStr addressResult.error) }
        else { isValid := true }
    | none => { isValid := true }

end ValidationService

/-! ## SecureLogger (secureLogger.ts)

`sanitizeData` walks a JS value; JS values reaching the logger are modelled by
`JsValue` (JS numbers by `Int`; no claim involves fractional numbers).

The three `SENSITIVE_PATTERNS` entries carrying the `g` flag (email, phone,
credit card) are stateful in JavaScript: `RegExp.prototype.test` on a global
regex starts matching at `lastIndex`, sets `lastIndex` past a successful
match, and resets it to 0 on failure; `String.prototype.replace` on a global
regex starts from 0 and leaves `lastIndex` at 0.  `RegexSt` carries the three
`lastIndex` fields. -/

namespace SecureLogger

/-- A JavaScript value (`any`) as passed to the logger. -/
inductive JsValue where
  | undefined
  | null
  | str (s : String)
  | num (n : Int)
  | bool (b : Bool)
  | arr (items : List JsValue)
  | obj (fields : List (String × JsValue))

/-- JS truthiness of a `JsValue` (used by `data ? … : undefined`). -/
def JsValue.truthy : JsValue → Bool
  | .undefined => false
  | .null => false
  | .str s => !(s == "")
  | .num n => !(n == 0)
  | .bool b => b
  | .arr _ => true
  | .obj _ => true

/-- Character at position `i`, if in bounds. -/
def getCharAt (s : List Char) (i : Nat) : Option Char := (s.drop i).head?

/-- Is the character at position `i` a regex word character (`\w`)? -/
def wordAt (s : List Char) (i : Nat) : Bool :=
  match getCharAt s i with
  | some c => JsStr.isWordChar c
  | none => false

/-- Regex `\b` at position `i`: exactly one of the adjacent positions holds a
word character (out-of-bounds counts as non-word). -/
def boundaryAt (s : List Char) (i : Nat) : Bool :=
  (match i with
   | 0 => false
   | j + 1 => wordAt s j) != wordAt s i

/-- `n` consecutive digits starting at position `i`. -/
def digitsAt (s : List Char) (i n : Nat) : Bool :=
  decide (i + n ≤ s.length) && ((s.drop i).take n).all Char.isDigit

/-- Optional one-character separator (`[-.]?` / `[-\s]?`): consumed when
present.  If a separator is consumed and the following digit group fails,
regex backtracking to the empty alternative also fails (a separator is not a
digit), so consuming greedily is exact. -/
def sepOpt (isSep : Char → Bool) (s : List Char) (p : Nat) : Nat :=
  match getCharAt s p with
  | some c => if isSep c then p + 1 else p
  | none => p

/-- Matcher (at one position) for a plain case-insensitive word pattern such
as `/password/i`: returns the end of the match. -/
def wordMatcher (pat : List Char) (s : List Char) (i : Nat) : Option Nat :=
  if ValidationService.startsWithCI pat (s.drop i) && decide (i + pat.length ≤ s.length)
  then some (i + pat.length) else none

/-- Matcher for `/Bearer\s+\S+/i`: `\s` and `\S` are disjoint, so both greedy
runs are deterministic. -/
def bearerMatchAt (s : List Char) (i : Nat) : Option Nat :=
  if !ValidationService.startsWithCI "bearer".toList (s.drop i) then none
  else
    let j := i + 6
    let sp := ((s.drop j).takeWhile JsStr.isJsSpace).length
    if sp == 0 then none
    else
      let k := j + sp
      let ns := ((s.drop k).takeWhile (fun c => !JsStr.isJsSpace c)).length
      if ns == 0 then none else some (k + ns)

/-- Class `[A-Za-z0-9._%+-]` (local part of the email sensitive-pattern). -/
def sensEmailLocal (c : Char) : Bool :=
  c.isAlphanum || c == '.' || c == '_' || c == '%' || c == '+' || c == '-'

/-- Class `[A-Za-z0-9.-]` (domain part of the email sensitive-pattern). -/
def sensDomainChar (c : Char) : Bool :=
  c.isAlphanum || c == '.' || c == '-'

/-- Class `[A-Z|a-z]` of the email pattern's final group — the source class
literally contains the pipe character. -/
def tldChar (c : Char) : Bool := c.isAlpha || c == '|'

/-- Backtracking of the greedy `[A-Z|a-z]{2,}\b` tail: try run lengths from
the maximal one down to 2, accepting the first length whose end position is a
word boundary. -/
def tldTry (s : List Char) (q0 : Nat) : Nat → Option Nat
  | t + 2 =>
    if boundaryAt s (q0 + t + 2) then some (q0 + t + 2)
    else tldTry s q0 (t + 1)
  | _ => none

/-- Backtracking of the greedy `[A-Za-z0-9.-]+\.` of the email pattern: try
domain-run lengths `k` from the longest down to 1; the dot must follow, then a
`[A-Z|a-z]{2,}\b` tail. -/
def emailDomTry (s : List Char) (dstart : Nat) : Nat → Option Nat
  | 0 => none
  | k + 1 =>
    if getCharAt s (dstart + k + 1) == some '.' then
      let q0 := dstart + k + 2
      let tmax := ((s.drop q0).takeWhile tldChar).length
      match tldTry s q0 tmax with
      | some e => some e
      | none => emailDomTry s dstart k
    else emailDomTry s dstart k

/-- Matcher at one position for
`/\b[A-Za-z0-9._%+-]+@[A-Za-z0-9.-]+\.[A-Z|a-z]{2,}\b/`: `@` belongs to no
class of the pattern, so the local part is the maximal run; the domain run of
length `m` always fails at full length (the following character cannot be a
dot, dots being domain characters), so backtracking starts at `m - 1`. -/
def emailMatchAt (s : List Char) (i : Nat) : Option Nat :=
  if !boundaryAt s i then none
  else
    let lrun := ((s.drop i).takeWhile sensEmailLocal).length
    if lrun == 0 then none
    else
      let j := i + lrun
      if !(getCharAt s j == some '@') then none
      else
        let dstart := j + 1
        let m := ((s.drop dstart).takeWhile sensDomainChar).length
        emailDomTry s dstart (m - 1)

/-- Matcher at one position for `/\b\d{3}[-.]?\d{3}[-.]?\d{4}\b/`. -/
def phoneMatchAt (s : List Char) (i : Nat) : Option Nat :=
  if !boundaryAt s i then none
  else if !digitsAt s i 3 then none
  else
    let p1 := sepOpt (fun c => c == '-' || c == '.') s (i + 3)
    if !digitsAt s p1 3 then none
    else
      let p2 := sepOpt (fun c => c == '-' || c == '.') s (p1 + 3)
      if !digitsAt s p2 4 then none
      else if boundaryAt s (p2 + 4) then some (p2 + 4) else none

/-- Matcher at one position for
`/\b\d{4}[-\s]?\d{4}[-\s]?\d{4}[-\s]?\d{4}\b/`. -/
def creditMatchAt (s : List Char) (i : Nat) : Option Nat :=
  if !boundaryAt s i then none
  else if !digitsAt s i 4 then none
  else
    let p1 := sepOpt (fun c => c == '-' || JsStr.isJsSpace c) s (i + 4)
    if !digitsAt s p1 4 then none
    else
      let p2 := sepOpt (fun c => c == '-' || JsStr.isJsSpace c) s (p1 + 4)
      if !digitsAt s p2 4 then none
      else
        let p3 := sepOpt (fun c => c == '-' || JsStr.isJsSpace c) s (p2 + 4)
        if !digitsAt s p3 4 then none
        else if boundaryAt s (p3 + 4) then some (p3 + 4) else none

/-- Leftmost match whose start position is at least `i`: `(start, end)`.
Fuel-based scan over start positions (`fuel ≥ s.length + 1 - i` suffices). -/
def findFromAux (m : List Char → Nat → Option Nat) (s : List Char) :
    Nat → Nat → Option (Nat × Nat)
  | 0, _ => none
  | fuel + 1, i =>
    match m s i with
    | some e => some (i, e)
    | none => findFromAux m s fuel (i + 1)

def findFrom (m : List Char → Nat → Option Nat) (s : List Char) (i : Nat) :
    Option (Nat × Nat) :=
  findFromAux m s (s.length + 1 - i) i

/-- `String.prototype.replace` with a non-global regex: replace the leftmost
match only. -/
def replaceFirst (m : List Char → Nat → Option Nat) (rep : List Char)
    (s : List Char) : List Char :=
  match findFrom m s 0 with
  | none => s
  | some (b, e) => s.take b ++ rep ++ s.drop e

/-- `String.prototype.replace` with a global regex: replace every
non-overlapping match left to right (none of the embedded patterns can match
the empty string, so every match strictly advances). -/
def replaceAllAux (m : List Char → Nat → Option Nat) (rep : List Char)
    (s : List Char) : Nat → Nat → List Char
  | 0, i => s.drop i
  | fuel + 1, i =>
    match findFrom m s i with
    | none => s.drop i
    | some (b, e) =>
      (s.drop i).take (b - i) ++ rep ++
        (if b < e then replaceAllAux m rep s fuel e else s.drop e)

def replaceAllG (m : List Char → Nat → Option Nat) (rep : List Char)
    (s : List Char) : List Char :=
  replaceAllAux m rep s (s.length + 1) 0

/-- `RegExp.prototype.test` on a global regex: read `lastIndex`, fail (and
reset to 0) when it exceeds the length, otherwise search from it; a successful
match stores the match end back into `lastIndex`, a failure resets it to 0.
Returns the result and the new `lastIndex`. -/
def testGlobal (m : List Char → Nat → Option Nat) (s : List Char)
    (lastIndex : Nat) : Bool × Nat :=
  if decide (s.length < lastIndex) then (false, 0)
  else
    match findFrom m s lastIndex with
    | some (_, e) => (true, e)
    | none => (false, 0)

/-- The twelve plain word patterns of `SENSITIVE_PATTERNS` (all `/word/i`,
replacement `[REDACTED]`), in source order. -/
def SENSITIVE_WORD_PATS : List (List Char) :=
  [ "password".toList, "token".toList, "secret".toList, "key".toList,
    "authorization".toList, "cookie".toList, "session".toList, "credit".toList,
    "ssn".toList, "phone".toList, "email".toList, "address".toList ]

def MAX_STRING_LENGTH : Nat := 200

/-- The string branch of `sanitizeData`: apply each sensitive pattern's
`replace` in source order (the word patterns and the Bearer pattern are
non-global, so they replace the first match; the email/phone/credit patterns
are global, so they replace every match). -/
def sanitizeStr (l : List Char) : List Char :=
  let l1 := SENSITIVE_WORD_PATS.foldl
    (fun acc pat => replaceFirst (wordMatcher pat) "[REDACTED]".toList acc) l
  let l2 := replaceFirst bearerMatchAt "Bearer [REDACTED]".toList l1
  let l3 := replaceAllG emailMatchAt "[EMAIL]".toList l2
  let l4 := replaceAllG phoneMatchAt "[PHONE]".toList l3
  replaceAllG creditMatchAt "[CREDIT_CARD]".toList l4

/-- The truncation at the end of the string branch. -/
def truncateStr (l : List Char) : List Char :=
  if decide (MAX_STRING_LENGTH < l.length) then l.take MAX_STRING_LENGTH ++ "...".toList
  else l

/-- The `lastIndex` state of the three global compiled patterns (email,
phone, credit card); all other patterns are stateless. -/
structure RegexSt where
  emailLI : Nat := 0
  phoneLI : Nat := 0
  creditLI : Nat := 0
deriving DecidableEq

/-- Fresh pattern state, as when the `SecureLogger` instance is created. -/
def freshRegexSt : RegexSt := {}

/-- The key check `SENSITIVE_PATTERNS.some(({pattern}) => pattern.test(key))`:
the patterns are tested in source order with short-circuiting; the three
global patterns consult and update their `lastIndex` when reached. -/
def isSensitiveKey (key : List Char) (st : RegexSt) : Bool × RegexSt :=
  if SENSITIVE_WORD_PATS.any (fun pat => (findFrom (wordMatcher pat) key 0).isSome) then
    (true, st)
  else if (findFrom bearerMatchAt key 0).isSome then (true, st)
  else
    let (bE, liE) := testGlobal emailMatchAt key st.emailLI
    if bE then (true, { st with emailLI := liE })
    else
      let (bP, liP) := testGlobal phoneMatchAt key st.phoneLI
      if bP then (true, { st with emailLI := liE, phoneLI := liP })
      else
        let (bC, liC) := testGlobal creditMatchAt key st.creditLI
        (bC, { emailLI := liE, phoneLI := liP, creditLI := liC })

mutual

/-- `SecureLogger.sanitizeData`, with the global patterns' `lastIndex` state
threaded through (`st`).  Every `replace` on a global pattern leaves its
`lastIndex` at 0, so the string branch resets the three fields. -/
def sanitizeData (st : RegexSt) (data : JsValue) (depth : Nat) : JsValue × RegexSt :=
  if depth > 5 then (.str "[MAX_DEPTH_REACHED]", st)
  else
    match data with
    | .null => (.null, st)
    | .undefined => (.undefined, st)
    | .str s => (.str (truncateStr (sanitizeStr s.toList)).asString, { st with
        emailLI := 0, phoneLI := 0, creditLI := 0 })
    | .num n => (.num n, st)
    | .bool b => (.bool b, st)
    | .arr items =>
      let (its, st1) := sanitizeList st items depth
      (.arr its, st1)
    | .obj fields =>
      let (fs, st1) := sanitizeFields st fields depth
      (.obj fs, st1)

/-- `data.map(item => this.sanitizeData(item, depth + 1))`, left to right. -/
def sanitizeList (st : RegexSt) (items : List JsValue) (depth : Nat) :
    List JsValue × RegexSt :=
  match items with
  | [] => ([], st)
  | v :: rest =>
    let (v1, st1) := sanitizeData st v (depth + 1)
    let (rest1, st2) := sanitizeList st1 rest depth
    (v1 :: rest1, st2)

/-- The `for key in data` loop of the object branch: a key matching some
sensitive pattern has its value replaced by `[REDACTED]` wholesale, any other
value is sanitized recursively at `depth + 1`. -/
def sanitizeFields (st : RegexSt) (fields : List (String × JsValue)) (depth : Nat) :
    List (String × JsValue) × RegexSt :=
  match fields with
  | [] => ([], st)
  | (k, v) :: rest =>
    let (sens, st1) := isSensitiveKey k.toList st
    if sens then
      let (rest1, st2) := sanitizeFields st1 rest depth
      ((k, .str "[REDACTED]") :: rest1, st2)
    else
      let (v1, st2) := sanitizeData st1 v (depth + 1)
      let (rest1, st3) := sanitizeFields st2 rest depth
      ((k, v1) :: rest1, st3)

end

inductive LogLevel where
  | debug
  | info
  | warn
  | error
deriving DecidableEq

/-- `LogEntry` (secureLogger.ts lines 8-14). -/
structure LogEntry where
  level : LogLevel
  timestamp : String
  message : String
  data : Option JsValue := none
  stack : Option String := none

/-- A JS `Error` object as the logger sees it (`stack?: string`). -/
structure JsError where
  stack : Option String := none

/-- The mutable state of the `SecureLogger` singleton: the ring buffer and
the compiled global patterns' `lastIndex` fields.  The model fixes
`isDevelopment = false` (a production build): the development-only console
output does not affect the buffer, and the production remote-logging hook is
a no-op. -/
structure LoggerState where
  logBuffer : List LogEntry
  regexSt : RegexSt

def emptyLogger : LoggerState := { logBuffer := [], regexSt := freshRegexSt }

def MAX_BUFFER_SIZE : Nat := 100

/-- `SecureLogger.addToBuffer`: push, then shift the oldest entry when the
buffer exceeds `MAX_BUFFER_SIZE`. -/
def addToBuffer (buffer : List LogEntry) (entry : LogEntry) : List LogEntry :=
  let b := buffer ++ [entry]
  if MAX_BUFFER_SIZE < b.length then b.tail else b

/-- `SecureLogger.log`: build the entry (sanitizing `data` when truthy,
recording the error's stack), append it to the ring buffer.  The timestamp
(`new Date().toISOString()`) is an environment input. -/
def log (level : LogLevel) (message : String) (data : JsValue)
    (error : Option JsError) (timestamp : String) (st : LoggerState) : LoggerState :=
  let (d, rst) :=
    if data.truthy then
      let (v, r) := sanitizeData st.regexSt data 0
      (some v, r)
    else (none, st.regexSt)
  let entry : LogEntry :=
    { level := level, timestamp := timestamp, message := message, data := d,
      stack := match error with
        | some e => e.stack
        | none => none }
  { logBuffer := addToBuffer st.logBuffer entry, regexSt := rst }

def debug (message : String) (data : JsValue) (timestamp : String)
    (st : LoggerState) : LoggerState :=
  log .debug message data none timestamp st

def info (message : String) (data : JsValue) (timestamp : String)
    (st : LoggerState) : LoggerState :=
  log .info message data none timestamp st

def warn (message : String) (data : JsValue) (timestamp : String)
    (st : LoggerState) : LoggerState :=
  log .warn message data none timestamp st

/-- The second argument of `SecureLogger.error`: either an `Error` instance
or any other value (`instanceof Error` distinguishes them). -/
inductive ErrArg where
  | jsErr (e : JsError)
  | val (v : JsValue)

/-- `SecureLogger.error(message, error?, data?)`: when the second argument is
an `Error`, it supplies the stack and the third argument is the data;
otherwise the second argument itself is passed as the data and the third
argument is dropped. -/
def error (message : String) (err : ErrArg) (data : JsValue) (timestamp : String)
    (st : LoggerState) : LoggerState :=
  match err with
  | .jsErr e => log .error message data (some e) timestamp st
  | .val v => log .error message v none timestamp st

/-- `SecureLogger.getLogs`: a copy of the buffer. -/
def getLogs (st : LoggerState) : List LogEntry := st.logBuffer

/-- `SecureLogger.clearLogs`. -/
def clearLogs (st : LoggerState) : LoggerState := { st with logBuffer := [] }

/-- One public buffer-affecting operation of the logger. -/
inductive LogOp where
  | logCall (level : LogLevel) (message : String) (data : JsValue)
      (err : Option JsError) (timestamp : String)
  | getLogsCall
  | clearLogsCall

def runOp (st : LoggerState) : LogOp → LoggerState
  | .logCall level message data err timestamp => log level message data err timestamp st
  | .getLogsCall => st
  | .clearLogsCall => clearLogs st

def runOps (st : LoggerState) (ops : List LogOp) : LoggerState := ops.foldl runOp st

/-- The entry produced by the `(i+1)`-st call of the C6 scenario. -/
def infoEntry (i : Nat) : LogEntry :=
  { level := .info, timestamp := "", message := Nat.repr (i + 1) }

/-- `n` successive `info` calls with messages `"1", "2", …` and no data. -/
def logN (st : LoggerState) : Nat → LoggerState
  | 0 => st
  | n + 1 => info (Nat.repr (n + 1)) .undefined "" (logN st n)

/-- A value nested `n` levels deep (for the C7 depth-bound scenario). -/
def nestedArr : Nat → JsValue
  | 0 => .num 1
  | n + 1 => .arr [nestedArr n]

/-- `n` array layers around a value. -/
def arrWrap : Nat → JsValue → JsValue
  | 0, v => v
  | n + 1, v => .arr [arrWrap n v]

end SecureLogger

end SafeGuard

namespace SafeGuard.RateLimiter

lemma checkLimit_allowed (identifier : String) (now : Int) (st : RateState)
    (hkeep : ∀ ts ∈ st identifier, now - WINDOW_MS < ts)
    (hlen : (st identifier).length < MAX_REQUESTS) :
    checkLimit identifier now st =
      ((true, MAX_REQUESTS - ((st identifier).length + 1)),
        fun id => if id = identifier then st identifier ++ [now] else st id) := by
  have hfilter : (st identifier).filter (fun ts => decide (now - WINDOW_MS < ts)) =
      st identifier :=
    List.filter_eq_self.mpr (fun ts hts => decide_eq_true (hkeep ts hts))
  unfold checkLimit
  simp only [hfilter]
  rw [if_neg (by omega)]
  simp [List.length_append]

lemma checkLimit_denied (identifier : String) (now : Int) (st : RateState)
    (hlen : MAX_REQUESTS ≤
      ((st identifier).filter (fun ts => decide (now - WINDOW_MS < ts))).length) :
    checkLimit identifier now st = ((false, 0), st) := by
  unfold checkLimit
  rw [if_pos hlen]

lemma stateAfter_succ (identifier : String) (t : Nat → Int) (st : RateState) (n : Nat) :
    stateAfter identifier t st (n + 1) =
      (checkLimit identifier (t n) (stateAfter identifier t st n)).2 := rfl

lemma stateAfter_spec (identifier : String) (t : Nat → Int) (st : RateState)
    (hempty : st identifier = [])
    (hmono : ∀ i j, i ≤ j → j ≤ 10 → t i ≤ t j)
    (hwin : t 10 - t 0 < WINDOW_MS) :
    ∀ k, k ≤ 10 → stateAfter identifier t st k identifier = (List.range k).map t := by
  intro k
  induction k with
  | zero => intro _; simpa using hempty
  | succ n ih =>
    intro hn
    have hn' : n ≤ 10 := by omega
    have hstate := ih hn'
    have hkeep : ∀ ts ∈ stateAfter identifier t st n identifier, t n - WINDOW_MS < ts := by
      intro ts hts
      rw [hstate] at hts
      obtain ⟨j, hj, rfl⟩ := List.mem_map.mp hts
      have hj' : j < n := List.mem_range.mp hj
      have h1 : t n ≤ t 10 := hmono n 10 hn' (le_refl 10)
      have h2 : t 0 ≤ t j := hmono 0 j (Nat.zero_le j) (by omega)
      omega
    have hlen : (stateAfter identifier t st n identifier).length < MAX_REQUESTS := by
      rw [hstate]
      simp [MAX_REQUESTS]
      omega
    show (checkLimit identifier (t n) (stateAfter identifier t st n)).2 identifier = _
    rw [checkLimit_allowed identifier (t n) _ hkeep hlen]
    simp only [if_pos rfl, hstate]
    rw [List.range_succ, List.map_append]
    simp

lemma resultOf_allowed (identifier : String) (t : Nat → Int) (st : RateState)
    (hempty : st identifier = [])
    (hmono : ∀ i j, i ≤ j → j ≤ 10 → t i ≤ t j)
    (hwin : t 10 - t 0 < WINDOW_MS) :
    ∀ k, k ≤ 9 → resultOf identifier t st k = (true, 9 - k) := by
  intro k hk
  have hstate := stateAfter_spec identifier t st hempty hmono hwin k (by omega)
  have hkeep : ∀ ts ∈ stateAfter identifier t st k identifier, t k - WINDOW_MS < ts := by
    intro ts hts
    rw [hstate] at hts
    obtain ⟨j, hj, rfl⟩ := List.mem_map.mp hts
    have hj' : j < k := List.mem_range.mp hj
    have h1 : t k ≤ t 10 := hmono k 10 (by omega) (le_refl 10)
    have h2 : t 0 ≤ t j := hmono 0 j (Nat.zero_le j) (by omega)
    omega
  have hlen : (stateAfter identifier t st k identifier).length < MAX_REQUESTS := by
    rw [hstate]
    simp [MAX_REQUESTS]
    omega
  unfold resultOf
  rw [checkLimit_allowed identifier (t k) _ hkeep hlen]
  rw [hstate]
  simp only [List.length_map, List.length_range, Prod.mk.injEq, true_and, MAX_REQUESTS]
  omega

lemma resultOf_tenth_denied (identifier : String) (t : Nat → Int) (st : RateState)
    (hempty : st identifier = [])
    (hmono : ∀ i j, i ≤ j → j ≤ 10 → t i ≤ t j)
    (hwin : t 10 - t 0 < WINDOW_MS) :
    resultOf identifier t st 10 = (false, 0) ∧
      stateAfter identifier t st 11 identifier = (List.range 10).map t := by
  have hstate := stateAfter_spec identifier t st hempty hmono hwin 10 (le_refl 10)
  have hfilter : (stateAfter identifier t st 10 identifier).filter
      (fun ts => decide (t 10 - WINDOW_MS < ts)) =
      stateAfter identifier t st 10 identifier := by
    apply List.filter_eq_self.mpr
    intro ts hts
    rw [hstate] at hts
    obtain ⟨j, hj, rfl⟩ := List.mem_map.mp hts
    have hj' : j < 10 := List.mem_range.mp hj
    have h2 : t 0 ≤ t j := hmono 0 j (Nat.zero_le j) (by omega)
    exact decide_eq_true (by omega)
  have hlen : MAX_REQUESTS ≤
      ((stateAfter identifier t st 10 identifier).filter
        (fun ts => decide (t 10 - WINDOW_MS < ts))).length := by
    rw [hfilter, hstate]
    simp only [List.length_map, List.length_range, MAX_REQUESTS, le_refl]
  have hdenied := checkLimit_denied identifier (t 10) (stateAfter identifier t st 10) hlen
  constructor
  · unfold resultOf
    rw [hdenied]
  · rw [show (11 : Nat) = 10 + 1 from rfl, stateAfter_succ, hdenied, ← hstate]

/-- C1: with `MAX_REQUESTS = 10` and a 60000 ms window, for any identifier and
any monotone call-timestamp sequence confined to one window, the first 10
`checkLimit` calls are allowed with remaining budgets 9, 8, ..., 0, the 11th
call in the same window is denied with remaining budget 0, and a later call
whose timestamp exceeds every stored timestamp by more than the window width
is allowed again. -/
theorem checkLimit_sliding_window (identifier : String) (t : Nat → Int) (st : RateState)
    (hempty : st identifier = [])
    (hmono : ∀ i j, i ≤ j → j ≤ 10 → t i ≤ t j)
    (hwin : t 10 - t 0 < WINDOW_MS) :
    (∀ k, k ≤ 9 → resultOf identifier t st k = (true, 9 - k)) ∧
    resultOf identifier t st 10 = (false, 0) ∧
    (∀ now, (∀ ts ∈ stateAfter identifier t st 11 identifier, WINDOW_MS < now - ts) →
      (checkLimit identifier now (stateAfter identifier t st 11)).1 = (true, 9)) := by
  refine ⟨resultOf_allowed identifier t st hempty hmono hwin,
    (resultOf_tenth_denied identifier t st hempty hmono hwin).1, ?_⟩
  intro now hlate
  have hdrop : (stateAfter identifier t st 11 identifier).filter
      (fun ts => decide (now - WINDOW_MS < ts)) = [] := by
    apply List.filter_eq_nil_iff.mpr
    intro ts hts
    have := hlate ts hts
    simp only [decide_eq_true_eq]
    omega
  unfold checkLimit
  simp only [hdrop]
  rw [if_neg (by simp [MAX_REQUESTS])]
  simp [MAX_REQUESTS]

/-- Witness for C1 at identifier `"x"`, timestamps `0, 1, ..., 10`, empty
initial state. -/
theorem checkLimit_sliding_window_witness :
    resultOf "x" (fun n => (n : Int)) (fun _ => []) 0 = (true, 9) ∧
    resultOf "x" (fun n => (n : Int)) (fun _ => []) 9 = (true, 0) ∧
    resultOf "x" (fun n => (n : Int)) (fun _ => []) 10 = (false, 0) := by
  have h := checkLimit_sliding_window "x" (fun n => (n : Int)) (fun _ => []) rfl
    (fun i j hij _ => by exact Int.ofNat_le.mpr hij) (by norm_num [WINDOW_MS])
  exact ⟨h.1 0 (by norm_num), h.1 9 (le_refl 9), h.2.1⟩

/-- C2 counterexample: a denied `checkLimit` call does not write the pruned
sequence back.  At `now = 100000` the pruned sequence for `"x"` drops the
stale timestamp 10000, yet the stored sequence after the denied call still
contains it. -/
theorem checkLimit_denied_writeback_counterexample :
    (checkLimit "x" 100000 staleState).1 = (false, 0) ∧
    (checkLimit "x" 100000 staleState).2 "x" ≠
      (staleState "x").filter (fun ts => decide (100000 - WINDOW_MS < ts)) := by
  constructor
  · decide
  · decide

/-- C2 amended: when the pruned count reaches `MAX_REQUESTS`, `checkLimit`
returns `(false, 0)` and leaves the stored map unchanged (the pruned sequence
is not written back); nevertheless every later call (at a timestamp `≥ now`)
computes the same pruned sequence it would have computed from the written-back
pruned sequence, so subsequent calls still observe the pruning effect. -/
theorem checkLimit_denied_no_writeback (identifier : String) (now : Int) (st : RateState)
    (h : MAX_REQUESTS ≤
      ((st identifier).filter (fun ts => decide (now - WINDOW_MS < ts))).length) :
    checkLimit identifier now st = ((false, 0), st) ∧
    ∀ nxt, now ≤ nxt →
      (st identifier).filter (fun ts => decide (nxt - WINDOW_MS < ts)) =
        ((st identifier).filter (fun ts => decide (now - WINDOW_MS < ts))).filter
          (fun ts => decide (nxt - WINDOW_MS < ts)) := by
  refine ⟨checkLimit_denied identifier now st h, ?_⟩
  intro nxt hnow
  rw [List.filter_filter]
  apply List.filter_congr
  intro ts _
  by_cases hts : nxt - WINDOW_MS < ts
  · have h2 : now - WINDOW_MS < ts := by omega
    simp [hts, h2]
  · simp [hts]

/-- Witness for the amended C2 at the concrete stale state. -/
theorem checkLimit_denied_no_writeback_witness :
    checkLimit "x" 100000 staleState = ((false, 0), staleState) :=
  (checkLimit_denied_no_writeback "x" 100000 staleState (by decide)).1

end SafeGuard.RateLimiter

namespace SafeGuard.ValidationService

/-! ### sanitizeString (claim C9) -/

lemma sanitizeStringList_append (x y : List Char) :
    sanitizeStringList (x ++ y) = sanitizeStringList x ++ sanitizeStringList y := by
  simp [sanitizeStringList, replaceCharAll, List.flatMap_append]

lemma sanitizeStringList_single (a : Char) : sanitizeStringList [a] = escChar a := by
  by_cases h1 : a = '&'
  · subst h1; decide
  · by_cases h2 : a = '<'
    · subst h2; decide
    · by_cases h3 : a = '>'
      · subst h3; decide
      · by_cases h4 : a = '"'
        · subst h4; decide
        · by_cases h5 : a = '\''
          · subst h5; decide
          · by_cases h6 : a = '/'
            · subst h6; decide
            · simp [sanitizeStringList, replaceCharAll, escChar, h1, h2, h3, h4, h5, h6]

lemma sanitizeStringList_eq_flatMap (l : List Char) :
    sanitizeStringList l = l.flatMap escChar := by
  induction l with
  | nil => decide
  | cons a l ih =>
    have h : sanitizeStringList (a :: l) = sanitizeStringList [a] ++ sanitizeStringList l :=
      sanitizeStringList_append [a] l
    rw [h, sanitizeStringList_single, ih, List.flatMap_cons]

lemma escChar_clean (a : Char) (h : isEscTarget a = false) : escChar a = [a] := by
  simp only [isEscTarget, Bool.or_eq_false_iff, beq_eq_false_iff_ne, ne_eq] at h
  obtain ⟨⟨⟨⟨⟨h1, h2⟩, h3⟩, h4⟩, h5⟩, h6⟩ := h
  simp [escChar, h1, h2, h3, h4, h5, h6]

lemma escChar_target_length (a : Char) (h : isEscTarget a = true) :
    4 ≤ (escChar a).length := by
  simp only [isEscTarget, Bool.or_eq_true, beq_iff_eq] at h
  rcases h with ((((rfl | rfl) | rfl) | rfl) | rfl) | rfl <;> decide

lemma one_le_length_escChar (a : Char) : 1 ≤ (escChar a).length := by
  by_cases h : isEscTarget a = true
  · have := escChar_target_length a h
    omega
  · rw [escChar_clean a (Bool.not_eq_true _ ▸ h)]
    simp

lemma amp_mem_escChar_target (a : Char) (h : isEscTarget a = true) : '&' ∈ escChar a := by
  simp only [isEscTarget, Bool.or_eq_true, beq_iff_eq] at h
  rcases h with ((((rfl | rfl) | rfl) | rfl) | rfl) | rfl <;> decide

lemma escChar_no_angle (a : Char) : ∀ c ∈ escChar a, ¬(c = '<' ∨ c = '>') := by
  by_cases h : isEscTarget a = true
  · simp only [isEscTarget, Bool.or_eq_true, beq_iff_eq] at h
    rcases h with ((((rfl | rfl) | rfl) | rfl) | rfl) | rfl <;> decide
  · rw [escChar_clean a (Bool.not_eq_true _ ▸ h)]
    intro c hc
    simp only [List.mem_singleton] at hc
    subst hc
    simp only [isEscTarget, Bool.or_eq_true, beq_iff_eq, not_or] at h
    tauto

lemma length_le_flatMap_escChar (l : List Char) :
    l.length ≤ (l.flatMap escChar).length := by
  induction l with
  | nil => simp
  | cons a l ih =>
    rw [List.flatMap_cons, List.length_append, List.length_cons]
    have := one_le_length_escChar a
    omega

lemma length_lt_flatMap_escChar (l : List Char) (h : ∃ c ∈ l, isEscTarget c = true) :
    l.length < (l.flatMap escChar).length := by
  induction l with
  | nil => simp at h
  | cons a l ih =>
    rw [List.flatMap_cons, List.length_append, List.length_cons]
    obtain ⟨c, hc, hct⟩ := h
    rcases List.mem_cons.mp hc with rfl | hcl
    · have h4 := escChar_target_length c hct
      have := length_le_flatMap_escChar l
      omega
    · have := ih ⟨c, hcl, hct⟩
      have := one_le_length_escChar a
      omega

lemma sanitize_clean_fixed (l : List Char) (h : ∀ c ∈ l, isEscTarget c = false) :
    sanitizeStringList l = l := by
  rw [sanitizeStringList_eq_flatMap]
  induction l with
  | nil => rfl
  | cons a l ih =>
    rw [List.flatMap_cons, escChar_clean a (h a (List.mem_cons_self a l)),
      ih (fun c hc => h c (List.mem_cons_of_mem a hc))]
    rfl

lemma sanitize_fixed_iff (l : List Char) :
    sanitizeStringList l = l ↔ ∀ c ∈ l, isEscTarget c = false := by
  constructor
  · intro h
    by_contra hex
    push_neg at hex
    obtain ⟨c, hc, hct⟩ := hex
    have hlt := length_lt_flatMap_escChar l ⟨c, hc, Bool.not_eq_false _ ▸ hct⟩
    rw [← sanitizeStringList_eq_flatMap, h] at hlt
    omega
  · exact sanitize_clean_fixed l

lemma amp_mem_sanitize (l : List Char) (h : ∃ c ∈ l, isEscTarget c = true) :
    '&' ∈ sanitizeStringList l := by
  rw [sanitizeStringList_eq_flatMap]
  obtain ⟨c, hc, hct⟩ := h
  exact List.mem_flatMap.mpr ⟨c, hc, amp_mem_escChar_target c hct⟩

lemma sanitize_idem_iff (l : List Char) :
    sanitizeStringList (sanitizeStringList l) = sanitizeStringList l ↔
      ∀ c ∈ l, isEscTarget c = false := by
  constructor
  · intro h
    by_contra hex
    push_neg at hex
    obtain ⟨c, hc, hct⟩ := hex
    have hamp : '&' ∈ sanitizeStringList l :=
      amp_mem_sanitize l ⟨c, hc, Bool.not_eq_false _ ▸ hct⟩
    have hlt := length_lt_flatMap_escChar (sanitizeStringList l) ⟨'&', hamp, by decide⟩
    rw [← sanitizeStringList_eq_flatMap, h] at hlt
    omega
  · intro h
    rw [sanitize_clean_fixed l h]
    exact sanitize_clean_fixed l h

lemma asString_eq_iff (x : List Char) (t : String) : x.asString = t ↔ x = t.toList := by
  constructor
  · intro h
    rw [← h]
    rfl
  · intro h
    rw [h]
    cases t
    rfl

/-- C9: `sanitizeString s = s` exactly when `s` contains none of the six
escaped characters `& < > " ' /`; consequently `sanitizeString` is idempotent
at `s` exactly for such already-clean `s`; and for any string containing
`<script>` (indeed for every string), one application leaves no literal `<`
or `>` character. -/
theorem sanitizeString_escape_properties (s : String) :
    (sanitizeString s = s ↔ ∀ c ∈ s.toList, isEscTarget c = false) ∧
    (sanitizeString (sanitizeString s) = sanitizeString s ↔
      ∀ c ∈ s.toList, isEscTarget c = false) ∧
    (List.IsInfix "<script>".toList s.toList →
      ∀ c ∈ (sanitizeString s).toList, ¬(c = '<' ∨ c = '>')) := by
  refine ⟨?_, ?_, ?_⟩
  · rw [show sanitizeString s = (sanitizeStringList s.toList).asString from rfl,
      asString_eq_iff]
    exact sanitize_fixed_iff s.toList
  · rw [show sanitizeString (sanitizeString s) =
        (sanitizeStringList (sanitizeStringList s.toList)).asString from rfl,
      asString_eq_iff]
    exact sanitize_idem_iff s.toList
  · intro _ c hc
    have hc2 : c ∈ sanitizeStringList s.toList := hc
    rw [sanitizeStringList_eq_flatMap] at hc2
    obtain ⟨b, hb, hcb⟩ := List.mem_flatMap.mp hc2
    exact escChar_no_angle b c hcb

/-- Witness for C9: the clean string `"ab"` is a fixed point, and at the
concrete string `"a<script>b"` (which contains `<script>`) the character `&`
of the sanitized output is neither `<` nor `>`. -/
theorem sanitizeString_escape_properties_witness :
    sanitizeString "ab" = "ab" ∧ ¬(('&' : Char) = '<' ∨ ('&' : Char) = '>') :=
  ⟨(sanitizeString_escape_properties "ab").1.mpr (by decide),
    (sanitizeString_escape_properties "a<script>b").2.2 (by decide) '&' (by decide)⟩

end SafeGuard.ValidationService

namespace SafeGuard.ValidationService

/-! ### Field validators (claims C4, C8) -/

lemma stripTagsAux_subset :
    ∀ (fuel : Nat) (l : List Char) (c : Char), c ∈ stripTagsAux fuel l → c ∈ l := by
  intro fuel
  induction fuel with
  | zero =>
    intro l c h
    simp only [stripTagsAux] at h
    exact h
  | succ n ih =>
    intro l c h
    match l with
    | [] =>
      simp only [stripTagsAux] at h
      exact h
    | a :: r =>
      rw [stripTagsAux] at h
      split at h
      · split at h
        · exact h
        · rename_i hd after heq
          have h2 := ih after c h
          have hsub : after.Sublist r := by
            have h3 : (r.dropWhile (fun d => !(d == '>'))).Sublist r :=
              List.dropWhile_sublist _
            rw [heq] at h3
            exact (List.sublist_cons_self hd after).trans h3
          exact List.mem_cons_of_mem a (hsub.mem h2)
      · rcases List.mem_cons.mp h with rfl | h2
        · exact List.mem_cons_self _ _
        · exact List.mem_cons_of_mem a (ih r c h2)

lemma domainLabels_chars :
    ∀ (fuel : Nat) (l : List Char), domainLabels fuel l = true →
      ∀ c ∈ l, (labelMid c || c == '.') = true := by
  intro fuel
  induction fuel with
  | zero =>
    intro l h
    simp [domainLabels] at h
  | succ n ih =>
    intro l h c hc
    simp only [domainLabels, Bool.and_eq_true] at h
    obtain ⟨hlbl, hrest⟩ := h
    rw [← List.takeWhile_append_dropWhile (p := labelMid) (l := l)] at hc
    rcases List.mem_append.mp hc with h1 | h2
    · simp [List.mem_takeWhile_imp h1]
    · split at hrest
      · rename_i heq
        rw [heq] at h2
        simp at h2
      · rename_i rest heq
        rw [heq] at h2
        rcases List.mem_cons.mp h2 with rfl | h3
        · simp
        · exact ih rest hrest c h3
      · exact absurd hrest (by simp)

lemma matchesEMAIL_chars (l : List Char) (h : matchesEMAIL l = true) :
    ∀ c ∈ l, emailAllowedChar c = true := by
  simp only [matchesEMAIL, Bool.and_eq_true] at h
  obtain ⟨hne, hmatch⟩ := h
  intro c hc
  rw [← List.takeWhile_append_dropWhile (p := emailLocalChar) (l := l)] at hc
  rcases List.mem_append.mp hc with h1 | h2
  · simp [emailAllowedChar, List.mem_takeWhile_imp h1]
  · split at hmatch
    · rename_i dom heq
      rw [heq] at h2
      rcases List.mem_cons.mp h2 with rfl | h3
      · simp [emailAllowedChar]
      · have hch := domainLabels_chars (dom.length + 1) dom hmatch c h3
        have hch2 : labelMid c = true ∨ c = '.' := by simpa using hch
        rcases hch2 with hX | hX <;> simp [emailAllowedChar, hX]
    · exact absurd hmatch (by simp)

lemma matchesNAME_chars (l : List Char) (h : matchesNAME l = true) :
    ∀ c ∈ l, isNameChar c = true := by
  simp only [matchesNAME, Bool.and_eq_true, List.all_eq_true] at h
  exact h.2

lemma validatePhoneNumber_cases (s : String) :
    (validatePhoneNumber s).isValid = false ∨
    validatePhoneNumber s =
      { isValid := true,
        sanitizedValue := some ((JsStr.jsTrim s.toList).filter isPhoneKeep).asString } := by
  simp only [validatePhoneNumber]
  split
  · left; rfl
  · split
    · left; rfl
    · split
      · left; rfl
      · right; rfl

lemma validateEmail_cases (s : String) :
    (validateEmail s).isValid = false ∨
    (matchesEMAIL ((JsStr.jsTrim s.toList).map Char.toLower) = true ∧
     validateEmail s =
       { isValid := true,
         sanitizedValue := some ((JsStr.jsTrim s.toList).map Char.toLower).asString }) := by
  simp only [validateEmail]
  split
  · left; rfl
  · split
    · left; rfl
    · split
      · left; rfl
      · rename_i h3
        right
        exact ⟨by simpa using h3, rfl⟩

lemma validateName_cases (s : String) :
    (validateName s).isValid = false ∨
    (matchesNAME (JsStr.jsTrim s.toList) = true ∧
     validateName s =
       { isValid := true,
         sanitizedValue := some (stripTags (JsStr.jsTrim s.toList)).asString }) := by
  simp only [validateName]
  split
  · left; rfl
  · split
    · left; rfl
    · split
      · left; rfl
      · rename_i h3
        right
        exact ⟨by simpa using h3, rfl⟩

lemma validateText_cases (s : String) (n : Nat) :
    (validateText s n).isValid = false ∨
    ∃ v, validateText s n = { isValid := true, sanitizedValue := some v } := by
  simp only [validateText]
  split
  · left; rfl
  · split
    · left; rfl
    · split
      · left; rfl
      · right; exact ⟨_, rfl⟩

lemma validateText_valid (s : String) (n : Nat) (h : (validateText s n).isValid = true) :
    ∃ v, (validateText s n).sanitizedValue = some v := by
  rcases validateText_cases s n with hf | ⟨v, hv⟩
  · rw [hf] at h
    exact absurd h (by simp)
  · exact ⟨v, by rw [hv]⟩

lemma validateRelationship_cases (s : String) :
    (validateRelationship s).isValid = false ∨
    validateRelationship s = { isValid := true, sanitizedValue := some "" } ∨
    ((validateText s MAX_LENGTHS.RELATIONSHIP).isValid = true ∧
     validateRelationship s =
       { isValid := true,
         sanitizedValue := (validateText s MAX_LENGTHS.RELATIONSHIP).sanitizedValue }) := by
  simp only [validateRelationship]
  split
  · right; left; rfl
  · split
    · left; rfl
    · rename_i h2
      right; right
      exact ⟨by simpa using h2, rfl⟩

lemma validateEmergencyContact_sanitized_none (contact : ContactInput) :
    (validateEmergencyContact contact).sanitizedValue = none := by
  simp only [validateEmergencyContact]
  split
  · rfl
  · split
    · rfl
    · split
      · split
        · rfl
        · split
          · rfl
          · rfl
      · rfl

lemma validateLocation_sanitized_none (loc : LocationInput) :
    (validateLocation loc).sanitizedValue = none := by
  simp only [validateLocation]
  split
  · rfl
  · split
    · rfl
    · split
      · split
        · rfl
        · split
          · rfl
          · rfl
      · rfl

/-- C4 (amended): every single-field validator that returns `isValid = true`
returns a defined `sanitizedValue`; for the pattern-based validators the
sanitized value contains only characters their pattern (for the phone, its
sanitizing whitelist, which coincides with the pattern's classes) allows;
the composite validators `validateEmergencyContact` and `validateLocation`
return `isValid = true` with `sanitizedValue` undefined. -/
theorem validator_sanitized_values (s : String) (n : Nat) (contact : ContactInput)
    (loc : LocationInput) :
    ((validatePhoneNumber s).isValid = true →
      ∃ v, (validatePhoneNumber s).sanitizedValue = some v ∧
        ∀ ch ∈ v.toList, isPhoneKeep ch = true) ∧
    ((validateEmail s).isValid = true →
      ∃ v, (validateEmail s).sanitizedValue = some v ∧
        ∀ ch ∈ v.toList, emailAllowedChar ch = true) ∧
    ((validateName s).isValid = true →
      ∃ v, (validateName s).sanitizedValue = some v ∧
        ∀ ch ∈ v.toList, isNameChar ch = true) ∧
    ((validateText s n).isValid = true → ∃ v, (validateText s n).sanitizedValue = some v) ∧
    ((validateRelationship s).isValid = true →
      ∃ v, (validateRelationship s).sanitizedValue = some v) ∧
    (validateEmergencyContact contact).sanitizedValue = none ∧
    (validateLocation loc).sanitizedValue = none := by
  refine ⟨?_, ?_, ?_, validateText_valid s n, ?_,
    validateEmergencyContact_sanitized_none contact, validateLocation_sanitized_none loc⟩
  · intro h
    rcases validatePhoneNumber_cases s with hf | hv
    · rw [h] at hf; exact absurd hf (by simp)
    · rw [hv]
      refine ⟨_, rfl, ?_⟩
      intro ch hch
      have hch2 : ch ∈ (JsStr.jsTrim s.toList).filter isPhoneKeep := hch
      exact List.of_mem_filter hch2
  · intro h
    rcases validateEmail_cases s with hf | ⟨hm, hv⟩
    · rw [h] at hf; exact absurd hf (by simp)
    · rw [hv]
      refine ⟨_, rfl, ?_⟩
      intro ch hch
      have hch2 : ch ∈ (JsStr.jsTrim s.toList).map Char.toLower := hch
      exact matchesEMAIL_chars _ hm ch hch2
  · intro h
    rcases validateName_cases s with hf | ⟨hm, hv⟩
    · rw [h] at hf; exact absurd hf (by simp)
    · rw [hv]
      refine ⟨_, rfl, ?_⟩
      intro ch hch
      have hch2 : ch ∈ stripTags (JsStr.jsTrim s.toList) := hch
      have hch3 : ch ∈ JsStr.jsTrim s.toList :=
        stripTagsAux_subset (JsStr.jsTrim s.toList).length (JsStr.jsTrim s.toList) ch hch2
      exact matchesNAME_chars _ hm ch hch3
  · intro h
    rcases validateRelationship_cases s with hf | hv | ⟨ht, hv⟩
    · rw [h] at hf; exact absurd hf (by simp)
    · exact ⟨"", by rw [hv]⟩
    · obtain ⟨v, hv2⟩ := validateText_valid s MAX_LENGTHS.RELATIONSHIP ht
      exact ⟨v, by rw [hv]; exact hv2⟩

/-- Witness for the amended C4: a valid phone number yields a defined,
whitelisted sanitized value, and a concrete valid location yields no
sanitized value. -/
theorem validator_sanitized_values_witness :
    (∃ v, (validatePhoneNumber "+1 5551234567").sanitizedValue = some v ∧
      ∀ ch ∈ v.toList, isPhoneKeep ch = true) ∧
    (validateLocation { latitude := 0, longitude := 0 }).sanitizedValue = none :=
  ⟨(validator_sanitized_values "+1 5551234567" 0 { name := "a", phone := "b" }
      { latitude := 0, longitude := 0 }).1 (by decide),
    (validator_sanitized_values "x" 0 { name := "a", phone := "b" }
      { latitude := 0, longitude := 0 }).2.2.2.2.2.2⟩

/-- C4 counterexample: the claim as stated includes `validateLocation` (and
`validateEmergencyContact`) among the operations whose valid results carry a
defined `sanitizedValue`; but `validateLocation` on a valid input returns
`isValid = true` with `sanitizedValue` undefined. -/
theorem validateLocation_undefined_sanitized_counterexample :
    (validateLocation { latitude := 0, longitude := 0 }).isValid = true ∧
    (validateLocation { latitude := 0, longitude := 0 }).sanitizedValue = none := by
  constructor <;> decide

/-- C8: `validateEmergencyContact` validates the name first, then the phone,
then the relationship when present and nonempty; it returns the first failure
with the corresponding `Name:` / `Phone:` / `Relationship:` prefix on that
sub-validator's message (never aggregating), and the overall valid result when
every performed sub-validation succeeds. -/
theorem validateEmergencyContact_short_circuit (contact : ContactInput) :
    ((validateName contact.name).isValid = false →
      validateEmergencyContact contact =
        { isValid := false,
          error := some ("Name: " ++ optStr (validateName contact.name).error) }) ∧
    ((validateName contact.name).isValid = true →
      (validatePhoneNumber contact.phone).isValid = false →
      validateEmergencyContact contact =
        { isValid := false,
          error := some ("Phone: " ++ optStr (validatePhoneNumber contact.phone).error) }) ∧
    (∀ rel, contact.relationship = some rel → rel ≠ "" →
      (validateName contact.name).isValid = true →
      (validatePhoneNumber contact.phone).isValid = true →
      (validateRelationship rel).isValid = false →
      validateEmergencyContact contact =
        { isValid := false,
          error := some ("Relationship: " ++ optStr (validateRelationship rel).error) }) ∧
    ((validateName contact.name).isValid = true →
      (validatePhoneNumber contact.phone).isValid = true →
      (∀ rel, contact.relationship = some rel → rel ≠ "" →
        (validateRelationship rel).isValid = true) →
      validateEmergencyContact contact = { isValid := true }) := by
  refine ⟨?_, ?_, ?_, ?_⟩
  · intro hname
    simp [validateEmergencyContact, hname]
  · intro hname hphone
    simp [validateEmergencyContact, hname, hphone]
  · intro rel hrel hne hname hphone hrelinvalid
    simp [validateEmergencyContact, hname, hphone, hrel, hne, hrelinvalid]
  · intro hname hphone hrelok
    cases hc : contact.relationship with
    | none => simp [validateEmergencyContact, hname, hphone, hc]
    | some rel =>
      by_cases hne : rel = ""
      · simp [validateEmergencyContact, hname, hphone, hc, hne]
      · have hrv := hrelok rel hc hne
        simp [validateEmergencyContact, hname, hphone, hc, hne, hrv]

/-- Witness for C8: the spec's end-to-end contact is overall valid, and an
empty name short-circuits with a `Name:`-prefixed error. -/
theorem validateEmergencyContact_short_circuit_witness :
    validateEmergencyContact
      { name := "John O'Brien", phone := "+1 (555) 123-4567",
        relationship := some "Brother" } = { isValid := true } ∧
    validateEmergencyContact { name := "", phone := "+1 (555) 123-4567" } =
      { isValid := false, error := some ("Name: " ++ optStr (validateName "").error) } := by
  constructor
  · exact (validateEmergencyContact_short_circuit _).2.2.2 (by decide) (by decide)
      (fun rel hrel hne => by
        simp only [Option.some.injEq] at hrel
        subst hrel
        decide)
  · exact (validateEmergencyContact_short_circuit _).1 (by decide)

end SafeGuard.ValidationService

namespace SafeGuard.SecureLogger

/-! ### SensitiveDataRedactor and SecureLogger (claims C3, C5, C6, C7, C10) -/

/-- C5: a key matching a sensitive-word pattern has its value replaced
wholesale while a non-matching key keeps its recursively sanitized value, and
a phone number inside a logged string is replaced by `[PHONE]`. -/
theorem sanitizeData_redaction_examples :
    (sanitizeData freshRegexSt
        (.obj [("password", .str "abc123"), ("name", .str "Bob")]) 0).1 =
      .obj [("password", .str "[REDACTED]"), ("name", .str "Bob")] ∧
    (sanitizeData freshRegexSt (.str "call me at 555-123-4567") 0).1 =
      .str "call me at [PHONE]" := by
  constructor <;> rfl

/-- C3: two successive `sanitizeData` calls on the same input need not agree,
because `test` on the three `g`-flagged compiled patterns reads and writes
their `lastIndex`.  With the phone-like key `"555-123-4567"`, the first call
(fresh state) redacts the value and leaves `lastIndex = 12`; the immediately
following identical call does not redact, and resets the state. -/
theorem sanitizeData_global_state_counterexample :
    sanitizeData freshRegexSt (.obj [("555-123-4567", .num 1)]) 0 =
      (.obj [("555-123-4567", .str "[REDACTED]")], { phoneLI := 12 }) ∧
    sanitizeData { phoneLI := 12 } (.obj [("555-123-4567", .num 1)]) 0 =
      (.obj [("555-123-4567", .num 1)], freshRegexSt) ∧
    JsValue.obj [("555-123-4567", .str "[REDACTED]")] ≠
      JsValue.obj [("555-123-4567", .num 1)] := by
  refine ⟨rfl, rfl, ?_⟩
  intro h
  simp at h

/-- C7: above recursion depth 5, `sanitizeData` returns the fixed
`[MAX_DEPTH_REACHED]` marker without touching the state or the value; on a
structure nested 10 levels deep the marker appears below the sixth layer. -/
theorem sanitizeData_depth_bound (st : RegexSt) (v : JsValue) (d : Nat) (h : 5 < d) :
    sanitizeData st v d = (.str "[MAX_DEPTH_REACHED]", st) ∧
    (sanitizeData freshRegexSt (nestedArr 10) 0).1 =
      arrWrap 6 (.str "[MAX_DEPTH_REACHED]") := by
  constructor
  · unfold sanitizeData
    rw [if_pos h]
  · rfl

/-- Witness for C7 at depth 6. -/
theorem sanitizeData_depth_bound_witness :
    sanitizeData freshRegexSt (.num 7) 6 = (.str "[MAX_DEPTH_REACHED]", freshRegexSt) :=
  (sanitizeData_depth_bound freshRegexSt (.num 7) 6 (by norm_num)).1

lemma addToBuffer_le (b : List LogEntry) (e : LogEntry) (h : b.length ≤ 100) :
    (addToBuffer b e).length ≤ 100 := by
  simp only [addToBuffer, MAX_BUFFER_SIZE]
  split
  · simp only [List.length_tail, List.length_append, List.length_cons, List.length_nil]
    omega
  · rename_i hlen
    simp only [List.length_append, List.length_cons, List.length_nil] at hlen ⊢
    omega

lemma runOps_le (ops : List LogOp) :
    ∀ st : LoggerState, st.logBuffer.length ≤ 100 →
      (runOps st ops).logBuffer.length ≤ 100 := by
  induction ops with
  | nil => intro st h; exact h
  | cons op rest ih =>
    intro st h
    have hstep : (runOp st op).logBuffer.length ≤ 100 := by
      cases op with
      | logCall lv msg d e ts =>
        simp only [runOp, log]
        exact addToBuffer_le _ _ h
      | getLogsCall => exact h
      | clearLogsCall => simp [runOp, clearLogs]
    exact ih (runOp st op) hstep

lemma logN_buffer : ∀ n : Nat, (logN emptyLogger n).logBuffer =
    ((List.range n).map infoEntry).drop (n - 100) := by
  intro n
  induction n with
  | zero => rfl
  | succ n ih =>
    have hstep : (logN emptyLogger (n + 1)).logBuffer =
        addToBuffer (logN emptyLogger n).logBuffer (infoEntry n) := rfl
    rw [hstep, ih, List.range_succ, List.map_append]
    simp only [List.map_cons, List.map_nil, addToBuffer, MAX_BUFFER_SIZE]
    split
    · rename_i hlen
      simp only [List.length_append, List.length_drop, List.length_map,
        List.length_range, List.length_cons, List.length_nil] at hlen
      have hn : 100 ≤ n := by omega
      have hne : ((List.range n).map infoEntry).drop (n - 100) ≠ [] := by
        intro hnil
        have := congrArg List.length hnil
        simp only [List.length_drop, List.length_map, List.length_range,
          List.length_nil] at this
        omega
      cases hxs : ((List.range n).map infoEntry).drop (n - 100) with
      | nil => exact absurd hxs hne
      | cons hd tl =>
        have htl : tl = ((List.range n).map infoEntry).drop (n - 100 + 1) := by
          have := congrArg List.tail hxs
          simpa [List.tail_drop] using this.symm
        have hdrop : (((List.range n).map infoEntry) ++ [infoEntry n]).drop (n + 1 - 100) =
            ((List.range n).map infoEntry).drop (n + 1 - 100) ++ [infoEntry n] :=
          List.drop_append_of_le_length (by simp only [List.length_map, List.length_range]; omega)
        rw [hdrop]
        have harith : n + 1 - 100 = n - 100 + 1 := by omega
        rw [harith, ← htl]
        rfl
    · rename_i hlen
      simp only [List.length_append, List.length_drop, List.length_map,
        List.length_range, List.length_cons, List.length_nil] at hlen
      have h1 : n - 100 = 0 := by omega
      have h2 : n + 1 - 100 = 0 := by omega
      rw [h1, h2]
      simp

/-- C6: the ring buffer never exceeds its capacity of 100 across any sequence
of `log` / `getLogs` / `clearLogs` operations, and eviction is oldest-first:
after 150 `info` calls with messages `"1" … "150"` on an empty logger,
`getLogs` returns exactly the 100 most recent entries in order, the first of
which is the 51st entry logged (message `"51"`). -/
theorem logger_ring_buffer_capacity (ops : List LogOp) (st : LoggerState) :
    (st.logBuffer.length ≤ 100 → (runOps st ops).logBuffer.length ≤ 100) ∧
    getLogs (logN emptyLogger 150) = ((List.range 150).map infoEntry).drop 50 ∧
    (getLogs (logN emptyLogger 150)).head? = some (infoEntry 50) ∧
    (infoEntry 50).message = "51" := by
  refine ⟨runOps_le ops st, ?_, ?_, rfl⟩
  · exact logN_buffer 150
  · rfl

/-- Witness for C6: a single log call on the empty logger stays within the
capacity. -/
theorem logger_ring_buffer_capacity_witness :
    (runOps emptyLogger [LogOp.logCall .info "a" .undefined none ""]).logBuffer.length ≤ 100 :=
  (logger_ring_buffer_capacity [LogOp.logCall .info "a" .undefined none ""] emptyLogger).1
    (by decide)

/-- C10 counterexample: with the falsy non-Error second argument `0`, the
logged entry carries no data at all (`data ? … : undefined`), not the
redacted second argument `some 0` the claim prescribes. -/
theorem error_falsy_second_arg_counterexample :
    (error "m" (.val (.num 0)) (.obj [("x", .num 1)]) "t" emptyLogger).logBuffer =
      [{ level := .error, timestamp := "t", message := "m", data := none, stack := none }] ∧
    some (sanitizeData emptyLogger.regexSt (.num 0) 0).1 ≠ (none : Option JsValue) := by
  exact ⟨rfl, by simp⟩

/-- C10 (amended): a non-Error second argument is logged as the entry's data
payload after redaction when it is truthy (a falsy one leaves the entry with
no data), the third argument is discarded either way, and the entry has no
stack; an Error second argument records its stack and the third argument is
the data payload. -/
theorem error_second_arg_dispatch (msg : String) (v d d2 : JsValue) (e : JsError)
    (ts : String) (st : LoggerState) :
    error msg (.val v) d ts st = error msg (.val v) d2 ts st ∧
    (v.truthy = true →
      error msg (.val v) d ts st =
        { logBuffer := addToBuffer st.logBuffer
            { level := .error, timestamp := ts, message := msg,
              data := some (sanitizeData st.regexSt v 0).1, stack := none },
          regexSt := (sanitizeData st.regexSt v 0).2 }) ∧
    (v.truthy = false →
      error msg (.val v) d ts st =
        { logBuffer := addToBuffer st.logBuffer
            { level := .error, timestamp := ts, message := msg, data := none,
              stack := none },
          regexSt := st.regexSt }) ∧
    (d.truthy = true →
      error msg (.jsErr e) d ts st =
        { logBuffer := addToBuffer st.logBuffer
            { level := .error, timestamp := ts, message := msg,
              data := some (sanitizeData st.regexSt d 0).1, stack := e.stack },
          regexSt := (sanitizeData st.regexSt d 0).2 }) := by
  refine ⟨rfl, ?_, ?_, ?_⟩
  · intro h
    simp [error, log, h]
  · intro h
    simp [error, log, h]
  · intro h
    simp [error, log, h]

/-- Witness for the amended C10 at a truthy non-Error second argument. -/
theorem error_second_arg_dispatch_witness :
    error "m" (.val (.str "s")) (.num 5) "t" emptyLogger =
      { logBuffer := addToBuffer emptyLogger.logBuffer
          { level := .error, timestamp := "t", message := "m",
            data := some (sanitizeData emptyLogger.regexSt (.str "s") 0).1,
            stack := none },
        regexSt := (sanitizeData emptyLogger.regexSt (.str "s") 0).2 } :=
  (error_second_arg_dispatch "m" (.str "s") (.num 5) (.num 0) { stack := none }
    "t" emptyLogger).2.1 rfl

end SafeGuard.SecureLogger
